import Mathlib

/-!
Shallow embedding of the ERC20 ledger in `src/lib.rs` (ink! contract module
`erc20`), together with theorems settling the specification claims.

Modelling conventions:
  * `AccountId` (opaque, comparable, hashable in the source) is `Nat`.
  * `Balance` (`u128` in ink!) is `Nat`; every value a `u128` can hold is
    `< 2 ^ 128`.  The single unchecked addition in `inner_transfer`
    (`to_balance + value`) is modelled with an explicit `% 2 ^ 128`,
    matching wraparound semantics of an unchecked release build; a debug
    build would panic at exactly the same inputs, and the theorems below
    only use the modulus at inputs where the mathematical sum already
    exceeds the `u128` range, so the conclusions are build-independent.
  * `ink_storage::collections::HashMap` is an association list with unique
    keys (`mapGet` / `mapInsert`): `insert` overwrites the entry of an
    existing key, lookup of an absent key is `none`.
  * Each `&mut self` method becomes a pure function
    `Erc20 → … → Result Unit × Erc20 × List Event` returning the state as
    mutated so far (an early `return Err(..)` therefore returns the input
    state unchanged, exactly as in the source, where every early return
    precedes the first write) and the list of events emitted by the call.
-/

namespace erc20

/-- Association-list lookup, mirroring `HashMap::get`. -/
def mapGet {α β : Type} [DecidableEq α] : List (α × β) → α → Option β
  | [], _ => none
  | (k, v) :: rest, key => if key = k then some v else mapGet rest key

/-- Association-list insert, mirroring `HashMap::insert`: replaces the value
of an existing key, otherwise appends a fresh entry. -/
def mapInsert {α β : Type} [DecidableEq α] : List (α × β) → α → β → List (α × β)
  | [], key, val => [(key, val)]
  | (k, v) :: rest, key, val =>
      if k = key then (key, val) :: rest else (k, v) :: mapInsert rest key val

abbrev AccountId := Nat

abbrev Balance := Nat

/-- One more than the maximum of `u128`: the modulus of the `Balance` type. -/
def U128_MOD : Nat := 2 ^ 128

/-- The checked addition of `u128`. -/
def checked_add (a b : Nat) : Option Nat :=
  if a + b < U128_MOD then some (a + b) else none

/-- The error enum of `src/lib.rs`. -/
inductive Error : Type
  | InsuffientBalance
  | InsuffientApproval
  | ApproveOverflow
  | AllowanceBelowZero
deriving DecidableEq, Repr

/-- The alias `pub type Result<T>` of `core::result::Result<T, Error>`. -/
inductive Result (α : Type) : Type
  | Ok : α → Result α
  | Err : Error → Result α
deriving DecidableEq, Repr

/-- The two ink! events of `src/lib.rs`.  The first field of `Transfer` is the
source account (None at mint), the second the destination. -/
inductive Event : Type
  | Transfer (source : Option AccountId) (dest : Option AccountId) (value : Balance)
  | Approval (owner : AccountId) (spender : AccountId) (value : Balance)
deriving DecidableEq, Repr

/-- The `#[ink(storage)]` struct `Erc20`. -/
structure Erc20 : Type where
  total_supply : Balance
  balance : List (AccountId × Balance)
  allowances : List ((AccountId × AccountId) × Balance)
deriving DecidableEq, Repr

/-- Constructor `new(supply)`; the constructing caller is passed explicitly
(it is `Self::env().caller()` in the source).  Returns the fresh state and
the mint event. -/
def Erc20.new (supply : Balance) (caller : AccountId) : Erc20 × List Event :=
  (⟨supply, mapInsert [] caller supply, []⟩,
   [Event.Transfer none (some caller) supply])

/-- Query `balance_of`: lookup in `balance` with default 0. -/
def Erc20.balance_of (s : Erc20) (owner : AccountId) : Balance :=
  (mapGet s.balance owner).getD 0

/-- Query `allowance`: lookup in `allowances` with default 0. -/
def Erc20.allowance (s : Erc20) (owner spender : AccountId) : Balance :=
  (mapGet s.allowances (owner, spender)).getD 0

/-- Method `inner_transfer(from, to, value)`, translated statement by statement:
read `from_balance`, fail if it is below `value`, read `to_balance`,
write `balance[from] = from_balance - value`, then write
`balance[to] = to_balance + value` (unchecked add, hence the modulus),
emit the Transfer event. -/
def Erc20.inner_transfer (s : Erc20) (source dest : AccountId) (value : Balance) :
    Result Unit × Erc20 × List Event :=
  let from_balance := s.balance_of source
  if from_balance < value then
    (Result.Err Error.InsuffientBalance, s, [])
  else
    let to_balance := s.balance_of dest
    let s1 : Erc20 := { s with balance := mapInsert s.balance source (from_balance - value) }
    let s2 : Erc20 := { s1 with balance := mapInsert s1.balance dest ((to_balance + value) % U128_MOD) }
    (Result.Ok (), s2, [Event.Transfer (some source) (some dest) value])

/-- Message `transfer(to, value)` with the authenticated `caller` made explicit. -/
def Erc20.transfer (s : Erc20) (caller dest : AccountId) (value : Balance) :
    Result Unit × Erc20 × List Event :=
  s.inner_transfer caller dest value

/-- Message `approve(spender, value)` with the authenticated `caller` made explicit. -/
def Erc20.approve (s : Erc20) (caller spender : AccountId) (value : Balance) :
    Result Unit × Erc20 × List Event :=
  (Result.Ok (),
   { s with allowances := mapInsert s.allowances (caller, spender) value },
   [Event.Approval caller spender value])

/-- Message `increase_approve(spender, value)` with the caller explicit:
`checked_add` on the current allowance, `ApproveOverflow` on `None`. -/
def Erc20.increase_approve (s : Erc20) (caller spender : AccountId) (value : Balance) :
    Result Unit × Erc20 × List Event :=
  let origin_value := s.allowance caller spender
  match checked_add origin_value value with
  | none => (Result.Err Error.ApproveOverflow, s, [])
  | some new_value =>
      (Result.Ok (),
       { s with allowances := mapInsert s.allowances (caller, spender) new_value },
       [Event.Approval caller spender new_value])

/-- Message `decrease_approve(spender, value)` with the caller explicit. -/
def Erc20.decrease_approve (s : Erc20) (caller spender : AccountId) (value : Balance) :
    Result Unit × Erc20 × List Event :=
  let origin_value := s.allowance caller spender
  if origin_value < value then
    (Result.Err Error.AllowanceBelowZero, s, [])
  else
    (Result.Ok (),
     { s with allowances := mapInsert s.allowances (caller, spender) (origin_value - value) },
     [Event.Approval caller spender (origin_value - value)])

/-- Message `transfer_from(from, to, value)` with the caller explicit: allowance
check first, then `inner_transfer` (whose failure is propagated with the
state it returned), then the allowance debit. -/
def Erc20.transfer_from (s : Erc20) (caller source dest : AccountId) (value : Balance) :
    Result Unit × Erc20 × List Event :=
  let allowed := s.allowance source caller
  if allowed < value then
    (Result.Err Error.InsuffientApproval, s, [])
  else
    match s.inner_transfer source dest value with
    | (Result.Err e, s1, evs) => (Result.Err e, s1, evs)
    | (Result.Ok _, s1, evs) =>
        (Result.Ok (),
         { s1 with allowances := mapInsert s1.allowances (source, caller) (allowed - value) },
         evs)

/-- One mutating message call, with its authenticated caller. -/
inductive Op : Type
  | transfer (caller dest : AccountId) (value : Balance)
  | approve (caller spender : AccountId) (value : Balance)
  | increase_approve (caller spender : AccountId) (value : Balance)
  | decrease_approve (caller spender : AccountId) (value : Balance)
  | transfer_from (caller source dest : AccountId) (value : Balance)
deriving DecidableEq, Repr

/-- Dispatch one call against the ledger state. -/
def applyOp (s : Erc20) : Op → Result Unit × Erc20 × List Event
  | Op.transfer caller dest value => s.transfer caller dest value
  | Op.approve caller spender value => s.approve caller spender value
  | Op.increase_approve caller spender value => s.increase_approve caller spender value
  | Op.decrease_approve caller spender value => s.decrease_approve caller spender value
  | Op.transfer_from caller source dest value => s.transfer_from caller source dest value

/-- Run a sequence of calls, requiring every one of them to succeed;
`none` if any call fails. -/
def runOps (s : Erc20) : List Op → Option Erc20
  | [] => some s
  | op :: rest =>
      match applyOp s op with
      | (Result.Ok _, s1, _) => runOps s1 rest
      | (Result.Err _, _, _) => none

/-- Run a sequence of calls, keeping the state each call returns whether it
succeeded or failed (a failed call returns the untouched state). -/
def runAll (s : Erc20) : List Op → Erc20
  | [] => s
  | op :: rest => runAll (applyOp s op).2.1 rest

/-- The sum of all values stored in the `balance` map. -/
def sumBalances (s : Erc20) : Nat :=
  (s.balance.map Prod.snd).sum

/-- Example state: account 0 minted a supply of 10. -/
def sW : Erc20 := (Erc20.new 10 0).1

/-- Example state: account 0 minted 10 and approved spender 2 for 5. -/
def sA : Erc20 := (sW.approve 0 2 5).2.1

/-- Example state: allowance of `(0, 2)` sits at the maximum of `u128`. -/
def sMax : Erc20 := ((Erc20.new 0 0).1.approve 0 2 (U128_MOD - 1)).2.1

/-! ## Helper lemmas about the map model -/

theorem mapGet_mapInsert {α β : Type} [DecidableEq α] (m : List (α × β)) (k key : α) (v : β) :
    mapGet (mapInsert m k v) key = if key = k then some v else mapGet m key := by
  induction m with
  | nil => simp [mapInsert, mapGet]
  | cons hd tl ih =>
      obtain ⟨k1, v1⟩ := hd
      by_cases h1 : k1 = k
      · subst h1
        by_cases h2 : key = k1 <;> simp [mapInsert, mapGet, h2]
      · by_cases h2 : key = k1 <;>
          simp [mapInsert, mapGet, h1, h2, ih]

theorem mapGet_mem {α β : Type} [DecidableEq α] (m : List (α × β)) (key : α) (v : β)
    (h : mapGet m key = some v) : (key, v) ∈ m := by
  induction m with
  | nil => simp [mapGet] at h
  | cons hd tl ih =>
      obtain ⟨k1, v1⟩ := hd
      by_cases h1 : key = k1
      · subst h1
        simp [mapGet] at h
        simp [h]
      · simp [mapGet, h1] at h
        exact List.mem_cons_of_mem _ (ih h)

/-- Every balance a state that stores only `u128` values can report is below
the modulus. -/
theorem balance_of_lt (s : Erc20) (h : ∀ p ∈ s.balance, p.2 < U128_MOD) (a : AccountId) :
    s.balance_of a < U128_MOD := by
  unfold Erc20.balance_of
  cases hm : mapGet s.balance a with
  | none => simpa using Nat.pos_pow_of_pos 128 (by norm_num)
  | some v => simpa using h (a, v) (mapGet_mem _ _ _ hm)

/-! ## Claim theorems -/

/-- Claim C1, refuted (the code has a bug): starting from `new(100)` issued by
account 0, the single successful operation `transfer(0, 0, 100)` — a
self-transfer — produces a state whose balances sum to 200 while
`total_supply` is 100.  The cause: `inner_transfer` reads `to_balance`
before debiting `from`, so when `from = to` the credit overwrites the debit
and the balance grows by `value`. -/
theorem conservation_violated_by_self_transfer :
    (runOps (Erc20.new 100 0).1 [Op.transfer 0 0 100]).map sumBalances = some 200 ∧
    (runOps (Erc20.new 100 0).1 [Op.transfer 0 0 100]).map Erc20.total_supply = some 100 := by
  decide

/-- Claim C2, refuted (the code has a bug): with `balance_of(0) = 1` from
`new(1)`, the self-transfer `inner_transfer(0, 0, 1)` passes its balance
check, succeeds and emits one Transfer event, but it is not a no-op on
balance: `balance_of(0)` becomes 2, not 1. -/
theorem self_transfer_inflates_balance :
    (Erc20.new 1 0).1.balance_of 0 = 1 ∧
    ((Erc20.new 1 0).1.inner_transfer 0 0 1).1 = Result.Ok () ∧
    ((Erc20.new 1 0).1.inner_transfer 0 0 1).2.2 = [Event.Transfer (some 0) (some 0) 1] ∧
    ((Erc20.new 1 0).1.inner_transfer 0 0 1).2.1.balance_of 0 = 2 := by
  decide

/-- Claim C3, refuted (the code has a bug): in the state reached from
`new(2 ^ 127)` — a legal `u128` supply — the call `transfer(0, 0, 2 ^ 127)`
passes the balance check, yet `to_balance + value = 2 ^ 128` exceeds both
`total_supply` and the maximum of the `Balance` type, so the unguarded
addition overflows: under wraparound the whole supply vanishes (sum of
balances becomes 0; a checked build would panic at the same input). -/
theorem inner_transfer_add_overflow_reachable :
    2 ^ 127 < U128_MOD ∧
    ¬ (Erc20.new (2 ^ 127) 0).1.balance_of 0 < 2 ^ 127 ∧
    (Erc20.new (2 ^ 127) 0).1.total_supply < (Erc20.new (2 ^ 127) 0).1.balance_of 0 + 2 ^ 127 ∧
    U128_MOD - 1 < (Erc20.new (2 ^ 127) 0).1.balance_of 0 + 2 ^ 127 ∧
    (runOps (Erc20.new (2 ^ 127) 0).1 [Op.transfer 0 0 (2 ^ 127)]).map sumBalances = some 0 := by
  refine ⟨by norm_num [U128_MOD], by decide, by decide, by norm_num [U128_MOD, Erc20.new,
    Erc20.balance_of, mapInsert, mapGet], ?_⟩
  decide

/-- Claim C5, refuted at `to = caller` (the code has a bug): from `new(1)`,
`transfer(caller 0, to 0, 1)` succeeds, but instead of the claimed
debit-by-1-and-credit-by-1 (which for `to = caller` nets to an unchanged
balance of 1), the resulting `balance_of(0)` is 2. -/
theorem transfer_to_self_credits_extra :
    (Erc20.new 1 0).1.balance_of 0 = 1 ∧
    ((Erc20.new 1 0).1.transfer 0 0 1).1 = Result.Ok () ∧
    ((Erc20.new 1 0).1.transfer 0 0 1).2.1.balance_of 0 = 2 := by
  decide

/-- Claim C4: `transfer_from` checks the allowance first — it fails with
`InsuffientApproval`, touching no state, exactly when the allowance of
`(from, caller)` is below `value`, regardless of the balance of `from`; a
sufficient allowance with an insufficient balance fails with
`InsuffientBalance`, leaving all state (the allowance entry included)
unchanged; and on success the allowance entry is set to its pre-call value
minus `value`. -/
theorem transfer_from_checks_allowance_first (s : Erc20) (caller source dest : AccountId)
    (value : Balance) :
    ((s.transfer_from caller source dest value).1 = Result.Err Error.InsuffientApproval ↔
      s.allowance source caller < value) ∧
    (s.allowance source caller < value →
      s.transfer_from caller source dest value = (Result.Err Error.InsuffientApproval, s, [])) ∧
    (¬ s.allowance source caller < value → s.balance_of source < value →
      s.transfer_from caller source dest value = (Result.Err Error.InsuffientBalance, s, [])) ∧
    (¬ s.allowance source caller < value → ¬ s.balance_of source < value →
      (s.transfer_from caller source dest value).1 = Result.Ok () ∧
      (s.transfer_from caller source dest value).2.1.allowance source caller =
        s.allowance source caller - value) := by
  by_cases h1 : s.allowance source caller < value
  · simp [Erc20.transfer_from, h1]
  · by_cases h2 : s.balance_of source < value
    · simp [Erc20.transfer_from, Erc20.inner_transfer, h1, h2]
    · have h1m : ¬ (mapGet s.allowances (source, caller)).getD 0 < value := h1
      simp [Erc20.transfer_from, Erc20.inner_transfer, h1m, h2, Erc20.allowance,
        mapGet_mapInsert]

/-- Concrete run of `transfer_from_checks_allowance_first`: account 0 holds 10
tokens and has approved spender 2 for 5; spender 2 moves 4 of them to
account 1, and the stored allowance drops to 1. -/
theorem transfer_from_checks_allowance_first_witness :
    (¬ sA.allowance 0 2 < 4 ∧ ¬ sA.balance_of 0 < 4) ∧
    ((sA.transfer_from 2 0 1 4).1 = Result.Ok () ∧
      (sA.transfer_from 2 0 1 4).2.1.allowance 0 2 = sA.allowance 0 2 - 4) :=
  ⟨⟨by decide, by decide⟩,
   (transfer_from_checks_allowance_first sA 2 0 1 4).2.2.2 (by decide) (by decide)⟩

/-- Claim C6: `decrease_approve` fails with `AllowanceBelowZero` exactly when
`value` exceeds the current allowance of `(caller, spender)`, leaving all
state unchanged on failure; otherwise it stores the old allowance minus
`value` and emits one Approval event carrying the reduced value. -/
theorem decrease_approve_checked (s : Erc20) (caller spender : AccountId) (value : Balance) :
    ((s.decrease_approve caller spender value).1 = Result.Err Error.AllowanceBelowZero ↔
      s.allowance caller spender < value) ∧
    (s.allowance caller spender < value →
      s.decrease_approve caller spender value = (Result.Err Error.AllowanceBelowZero, s, [])) ∧
    (¬ s.allowance caller spender < value →
      (s.decrease_approve caller spender value).1 = Result.Ok () ∧
      (s.decrease_approve caller spender value).2.1.allowance caller spender =
        s.allowance caller spender - value ∧
      (s.decrease_approve caller spender value).2.2 =
        [Event.Approval caller spender (s.allowance caller spender - value)]) := by
  by_cases h : s.allowance caller spender < value
  · have hm : (mapGet s.allowances (caller, spender)).getD 0 < value := h
    simp [Erc20.decrease_approve, hm, Erc20.allowance]
  · have hm : ¬ (mapGet s.allowances (caller, spender)).getD 0 < value := h
    simp [Erc20.decrease_approve, hm, Erc20.allowance, mapGet_mapInsert]

/-- Concrete run of `decrease_approve_checked`: with allowance 5, decreasing
by 2 succeeds, stores 3 and emits Approval with 3. -/
theorem decrease_approve_checked_witness :
    ¬ sA.allowance 0 2 < 2 ∧
    ((sA.decrease_approve 0 2 2).1 = Result.Ok () ∧
      (sA.decrease_approve 0 2 2).2.1.allowance 0 2 = sA.allowance 0 2 - 2 ∧
      (sA.decrease_approve 0 2 2).2.2 = [Event.Approval 0 2 (sA.allowance 0 2 - 2)]) :=
  ⟨by decide, (decrease_approve_checked sA 0 2 2).2.2 (by decide)⟩

/-- Claim C7: `increase_approve` computes the checked sum of the current
allowance and `value`; it fails with `ApproveOverflow` exactly when that sum
exceeds the maximum of the `Balance` type, leaving all state unchanged, and
otherwise stores the sum and emits one Approval event carrying it. -/
theorem increase_approve_checked (s : Erc20) (caller spender : AccountId) (value : Balance) :
    ((s.increase_approve caller spender value).1 = Result.Err Error.ApproveOverflow ↔
      U128_MOD - 1 < s.allowance caller spender + value) ∧
    (U128_MOD - 1 < s.allowance caller spender + value →
      s.increase_approve caller spender value = (Result.Err Error.ApproveOverflow, s, [])) ∧
    (¬ U128_MOD - 1 < s.allowance caller spender + value →
      (s.increase_approve caller spender value).1 = Result.Ok () ∧
      (s.increase_approve caller spender value).2.1.allowance caller spender =
        s.allowance caller spender + value ∧
      (s.increase_approve caller spender value).2.2 =
        [Event.Approval caller spender (s.allowance caller spender + value)]) := by
  have hpos : 0 < U128_MOD := by norm_num [U128_MOD]
  by_cases h : s.allowance caller spender + value < U128_MOD
  · have hm : ¬ U128_MOD - 1 < s.allowance caller spender + value :=
      Nat.not_lt.mpr ((Nat.lt_iff_le_pred hpos).mp h)
    have hc : (mapGet s.allowances (caller, spender)).getD 0 + value < U128_MOD := h
    have hmc : ¬ U128_MOD - 1 < (mapGet s.allowances (caller, spender)).getD 0 + value := hm
    simp [Erc20.increase_approve, checked_add, hc, hmc, Erc20.allowance, mapGet_mapInsert]
  · have hm : U128_MOD - 1 < s.allowance caller spender + value :=
      Nat.lt_of_lt_of_le (Nat.sub_lt hpos Nat.one_pos) (Nat.not_lt.mp h)
    have hc : ¬ (mapGet s.allowances (caller, spender)).getD 0 + value < U128_MOD := h
    have hmc : U128_MOD - 1 < (mapGet s.allowances (caller, spender)).getD 0 + value := hm
    simp [Erc20.increase_approve, checked_add, hc, hmc, Erc20.allowance]

/-- Concrete run of `increase_approve_checked` (Scenario E): with the
allowance already at the maximum of `u128`, increasing it by 1 fails with
`ApproveOverflow` and leaves the state untouched. -/
theorem increase_approve_checked_witness :
    U128_MOD - 1 < sMax.allowance 0 2 + 1 ∧
    sMax.increase_approve 0 2 1 = (Result.Err Error.ApproveOverflow, sMax, []) :=
  ⟨by decide, (increase_approve_checked sMax 0 2 1).2.1 (by decide)⟩

/-- Neither branch of `inner_transfer` writes `total_supply`. -/
theorem inner_transfer_total_supply (s : Erc20) (a b : AccountId) (v : Balance) :
    ((s.inner_transfer a b v).2.1).total_supply = s.total_supply := by
  unfold Erc20.inner_transfer
  dsimp only
  split <;> rfl

/-- No dispatched operation writes `total_supply`. -/
theorem applyOp_total_supply (s : Erc20) (op : Op) :
    ((applyOp s op).2.1).total_supply = s.total_supply := by
  cases op with
  | transfer caller dest value =>
      exact inner_transfer_total_supply s caller dest value
  | approve caller spender value => rfl
  | increase_approve caller spender value =>
      unfold applyOp Erc20.increase_approve
      dsimp only
      split <;> rfl
  | decrease_approve caller spender value =>
      unfold applyOp Erc20.decrease_approve
      dsimp only
      split <;> rfl
  | transfer_from caller source dest value =>
      unfold applyOp Erc20.transfer_from
      dsimp only
      split
      · rfl
      · split
        · next e s1 evs heq =>
            have h1 := inner_transfer_total_supply s source dest value
            rw [heq] at h1
            exact h1
        · next s1 evs heq =>
            have h1 := inner_transfer_total_supply s source dest value
            rw [heq] at h1
            exact h1

/-- Running any sequence of calls (successful or failed) keeps `total_supply`. -/
theorem runAll_total_supply (s : Erc20) (ops : List Op) :
    (runAll s ops).total_supply = s.total_supply := by
  induction ops generalizing s with
  | nil => rfl
  | cons op rest ih =>
      calc (runAll (applyOp s op).2.1 rest).total_supply
          = ((applyOp s op).2.1).total_supply := ih _
        _ = s.total_supply := applyOp_total_supply s op

/-- Claim C8: `new(supply)` sets `total_supply = supply`, a balances map with
exactly the one entry mapping the constructing caller to `supply`, and empty
allowances; and after every subsequent sequence of operations `total_supply`
still returns the constructed supply. -/
theorem new_fixes_total_supply (supply : Balance) (caller : AccountId) (ops : List Op) :
    (Erc20.new supply caller).1.total_supply = supply ∧
    (Erc20.new supply caller).1.balance = [(caller, supply)] ∧
    (Erc20.new supply caller).1.allowances = [] ∧
    (runAll (Erc20.new supply caller).1 ops).total_supply = supply :=
  ⟨rfl, rfl, rfl, runAll_total_supply _ ops⟩

/-- Claim C9: `approve` always succeeds, overwrites the allowance entry of
`(caller, spender)` with `value` (so the allowance query then returns
`value`, not the old allowance plus `value`), emits one Approval event with
`value`, and modifies neither the balances map nor any other allowance
entry. -/
theorem approve_overwrites (s : Erc20) (caller spender : AccountId) (value : Balance) :
    (s.approve caller spender value).1 = Result.Ok () ∧
    (s.approve caller spender value).2.1.allowance caller spender = value ∧
    (s.approve caller spender value).2.1.balance = s.balance ∧
    (s.approve caller spender value).2.2 = [Event.Approval caller spender value] ∧
    (∀ owner other : AccountId, (owner, other) ≠ (caller, spender) →
      (s.approve caller spender value).2.1.allowance owner other =
        s.allowance owner other) := by
  refine ⟨rfl, ?_, rfl, rfl, ?_⟩
  · simp [Erc20.approve, Erc20.allowance, mapGet_mapInsert]
  · intro owner other h
    simp [Erc20.approve, Erc20.allowance, mapGet_mapInsert, h]

/-- Concrete run of `approve_overwrites`: approving `(0, 2)` does not change
the unrelated allowance entry `(0, 1)`. -/
theorem approve_overwrites_witness :
    ((0, 1) : AccountId × AccountId) ≠ ((0, 2) : AccountId × AccountId) ∧
    (sW.approve 0 2 7).2.1.allowance 0 1 = sW.allowance 0 1 :=
  ⟨by decide, (approve_overwrites sW 0 2 7).2.2.2.2 0 1 (by decide)⟩

/-- Claim C10: a zero-value transfer always succeeds — for every caller and
destination, also when the destination has no balance entry or equals the
caller — changes no reported balance, and still emits one Transfer event
with value 0.  The hypothesis states that every stored balance is a `u128`
value, which holds for every state the Rust type system admits. -/
theorem zero_value_transfer_ok (s : Erc20) (caller dest : AccountId)
    (h : ∀ p ∈ s.balance, p.2 < U128_MOD) :
    (s.transfer caller dest 0).1 = Result.Ok () ∧
    (∀ a : AccountId, (s.transfer caller dest 0).2.1.balance_of a = s.balance_of a) ∧
    (s.transfer caller dest 0).2.2 = [Event.Transfer (some caller) (some dest) 0] := by
  have hd : s.balance_of dest % U128_MOD = s.balance_of dest :=
    Nat.mod_eq_of_lt (balance_of_lt s h dest)
  refine ⟨?_, ?_, ?_⟩
  · simp [Erc20.transfer, Erc20.inner_transfer]
  · intro a
    simp only [Erc20.transfer, Erc20.inner_transfer, Nat.not_lt_zero, if_false,
      Nat.sub_zero, Nat.add_zero, hd]
    by_cases h1 : a = dest
    · subst h1
      simp [Erc20.balance_of, mapGet_mapInsert]
    · by_cases h2 : a = caller
      · subst h2
        simp [Erc20.balance_of, mapGet_mapInsert, h1]
      · simp [Erc20.balance_of, mapGet_mapInsert, h1, h2]
  · simp [Erc20.transfer, Erc20.inner_transfer]

/-- Concrete run of `zero_value_transfer_ok`: in the freshly minted state, a
zero-value transfer from account 0 to the entryless account 1 succeeds and
leaves both reported balances unchanged. -/
theorem zero_value_transfer_ok_witness :
    (∀ p ∈ sW.balance, p.2 < U128_MOD) ∧
    ((sW.transfer 0 1 0).1 = Result.Ok () ∧
      (sW.transfer 0 1 0).2.1.balance_of 0 = sW.balance_of 0 ∧
      (sW.transfer 0 1 0).2.1.balance_of 1 = sW.balance_of 1) := by
  have h : ∀ p ∈ sW.balance, p.2 < U128_MOD := by decide
  exact ⟨h, (zero_value_transfer_ok sW 0 1 h).1,
    (zero_value_transfer_ok sW 0 1 h).2.1 0,
    (zero_value_transfer_ok sW 0 1 h).2.1 1⟩

end erc20
